import Mathlib

/-!
Shallow embedding of `src/scripts/batch_geocode_google.py`, a batch
geocoding script: spreadsheet rows are parsed into address records, a CSV
cache is consulted, cache misses are fetched from a geocoding provider
(with a bounded retry policy for rate-limit errors), and the results are
joined back for output.

Modelling conventions:
 - A spreadsheet cell is `Option String`: `none` is a pandas-NA cell,
   `some s` holds the Python `str(...)` rendering of the cell's value.
 - Coordinates are `Option Int` (the code never computes with them, it
   only moves them around and tests them for NA, so the carrier type is
   irrelevant; `none` is NA / Python `None`).
 - The cache DataFrame is a `List CacheEntry` in row order.
 - The external provider is an oracle `Nat → ProviderResp` giving the
   response to the n-th provider call of the run (0-indexed); an
   exception is represented by the `str(e)` of the raised exception.
 - File-system state for the cache file is the inductive `DiskFile`.
-/

/-- One relevant row of the input sheet, read with `header=None`.
`col0` is `row[0]` (identifier), `col3` is `row[3]` (street),
`col4` is `row[4]` (postal code), `col5` is `row[5]` (city);
`none` models `pd.isna`, `some s` the `str()` form of the value. -/
structure Row where
  col0 : Option String
  col3 : Option String
  col4 : Option String
  col5 : Option String
deriving DecidableEq, Repr

/-- The dict appended by `parse_sheet` for each kept row. -/
structure AddressRecord where
  dm_code : String
  strasse : String
  plz : String
  ort : String
  country : String
  address_for_geocoding : String
deriving DecidableEq, Repr

/-- One row of the cache DataFrame: columns
`address_for_geocoding, latitude, longitude, place_id, geocode_status`. -/
structure CacheEntry where
  address_for_geocoding : String
  latitude : Option Int
  longitude : Option Int
  place_id : Option String
  geocode_status : String
deriving DecidableEq, Repr

/-- Embeds Python `s.strip()`: drop leading and trailing whitespace. -/
def pyStrip (s : String) : String :=
  String.mk (((s.data.dropWhile Char.isWhitespace).reverse.dropWhile
    Char.isWhitespace).reverse)

/-- Embeds Python `s.split(".")[0]`: everything before the first dot
(the whole string when no dot occurs). -/
def truncateDot (s : String) : String :=
  String.mk (s.data.takeWhile (fun c => c ≠ '.'))

/-- The identifier sentinel strings skipped by `parse_sheet`. -/
def sentinels : List String := ["dm-Markt", "Gesamt"]

/-- The per-row body of the loop in `parse_sheet`: `none` when the row is
skipped, `some rec` when a record dict is appended. -/
def parse_row (country_label : String) (row : Row) : Option AddressRecord :=
  match row.col0 with
  | none => none
  | some first =>
    if pyStrip first ∈ sentinels then none
    else
      match row.col3 with
      | none => none
      | some street =>
        if pyStrip street = "Strasse" then none
        else
          let plz : String :=
            match row.col4 with
            | none => ""
            | some v => truncateDot v
          let city : String :=
            match row.col5 with
            | none => ""
            | some v => v
          let code := pyStrip first
          let street_str := pyStrip street
          let addr := street_str ++ ", " ++ plz ++ " " ++ city ++ ", " ++ country_label
          some ⟨code, street_str, plz, city, country_label, addr⟩

/-- `parse_sheet`: iterate the sheet's rows, keeping the records of the
rows that are not skipped (sheet reading itself is external I/O). -/
def parse_sheet (country_label : String) (rows : List Row) : List AddressRecord :=
  rows.filterMap (parse_row country_label)

/-- State of the cache file on disk as seen by `load_or_create_cache`:
absent, present but unreadable (`pd.read_csv` raises), or readable with
the given rows. -/
inductive DiskFile where
  | absent
  | unreadable
  | content (entries : List CacheEntry)
deriving DecidableEq, Repr

/-- `load_or_create_cache`: return the file's rows when it exists and
reads cleanly; otherwise (absent, or any read exception) return the
empty cache. -/
def load_or_create_cache : DiskFile → List CacheEntry
  | .absent => []
  | .unreadable => []
  | .content entries => entries

/-- Embeds `drop_duplicates(subset=["address_for_geocoding"], keep="last")`:
a row is kept iff no later row has the same key; kept rows stay in order. -/
def dropDuplicatesKeepLast : List CacheEntry → List CacheEntry
  | [] => []
  | e :: rest =>
    if rest.any (fun e2 => e2.address_for_geocoding == e.address_for_geocoding)
    then dropDuplicatesKeepLast rest
    else e :: dropDuplicatesKeepLast rest

/-- `save_cache`: the logical content written to the cache file —
the DataFrame deduplicated by `address_for_geocoding`, keeping the last
occurrence (the CSV write itself is external I/O). -/
def save_cache (cache_df : List CacheEntry) : List CacheEntry :=
  dropDuplicatesKeepLast cache_df

/-- Cache rows whose key equals `addr` (the join partners of a record). -/
def findMatches (cache : List CacheEntry) (addr : String) : List CacheEntry :=
  cache.filter (fun e => e.address_for_geocoding == addr)

/-- One row of `combined.merge(cache_df, on="address_for_geocoding",
how="left")`: the record's fields plus the matched entry's fields
(all NA when the record has no cache partner). -/
structure MergedRow where
  record : AddressRecord
  latitude : Option Int
  longitude : Option Int
  place_id : Option String
  geocode_status : Option String
deriving DecidableEq, Repr

/-- The merged rows contributed by one record in a pandas left merge:
one all-NA row when the key has no partner, otherwise one row per
matching cache row. -/
def mergeRow (cache : List CacheEntry) (r : AddressRecord) : List MergedRow :=
  match findMatches cache r.address_for_geocoding with
  | [] => [⟨r, none, none, none, none⟩]
  | ms => ms.map (fun e => ⟨r, e.latitude, e.longitude, e.place_id, some e.geocode_status⟩)

/-- `combined.merge(cache_df, on="address_for_geocoding", how="left")`. -/
def mergeJoin (combined : List AddressRecord) (cache : List CacheEntry) : List MergedRow :=
  (combined.map (mergeRow cache)).flatten

/-- `merged[merged["latitude"].isna()]`: the rows to fetch. -/
def toFetch (combined : List AddressRecord) (cache : List CacheEntry) : List MergedRow :=
  (mergeJoin combined cache).filter (fun m => m.latitude.isNone)

/-- The dict built by `geocode_one` from the best provider result
(`loc.get("lat")`, `loc.get("lng")`, `best.get("place_id")`,
`best.get("formatted_address")`; dict `get` yields `none` when absent). -/
structure GeocodeData where
  latitude : Option Int
  longitude : Option Int
  place_id : Option String
  formatted_address : Option String
deriving DecidableEq, Repr

/-- One response of `gmaps_client.geocode`: either a (possibly empty)
result list, or a raised exception carrying its `str(e)` message. -/
inductive ProviderResp where
  | results (rs : List GeocodeData)
  | exc (msg : String)
deriving DecidableEq, Repr

/-- Embeds Python `pat in hay` on the character lists (contiguous
substring containment). -/
def listHasInfix (pat : List Char) : List Char → Bool
  | [] => pat.isEmpty
  | c :: t => pat.isPrefixOf (c :: t) || listHasInfix pat t

/-- Python `pat in hay` for strings. -/
def strContains (hay pat : String) : Bool :=
  listHasInfix pat.data hay.data

/-- Outcome of one un-retried execution of `geocode_one`'s body. -/
inductive AttemptOutcome where
  | ok (r : Option GeocodeData)
  | rateLimit (msg : String)
  | otherError (msg : String)
deriving DecidableEq, Repr

/-- The body of `geocode_one` for a single attempt: an exception whose
message contains `OVER_QUERY_LIMIT` or `OVER_DAILY_LIMIT` becomes a
`RateLimitError`, any other exception re-raises unchanged; an empty
result list returns `None`; otherwise the first result's dict. -/
def geocode_one_attempt : ProviderResp → AttemptOutcome
  | .exc msg =>
    if strContains msg "OVER_QUERY_LIMIT" || strContains msg "OVER_DAILY_LIMIT"
    then .rateLimit msg
    else .otherError msg
  | .results [] => .ok none
  | .results (best :: _) => .ok (some best)

/-- Whether a provider response makes the attempt raise `RateLimitError`. -/
def isRateLimitResp (resp : ProviderResp) : Bool :=
  match geocode_one_attempt resp with
  | .rateLimit _ => true
  | _ => false

/-- The wait tenacity's `wait_exponential(multiplier=1, min=2, max=60)`
computes after the `n`-th attempt: `max(max(0, min), min(multiplier *
2 ** n, max))`. -/
def wait_exponential_value (n : Nat) : Nat :=
  max (max 0 2) (min (1 * 2 ^ n) 60)

/-- Result of the whole retry-wrapped `geocode_one` call, with the number
of provider attempts it consumed. -/
inductive GeocodeResult where
  | success (r : Option GeocodeData) (attempts : Nat)
  | rateLimitRaised (msg : String) (attempts : Nat)
  | errorRaised (msg : String) (attempts : Nat)
deriving DecidableEq, Repr

/-- Provider attempts consumed by a `GeocodeResult`. -/
def GeocodeResult.attempts : GeocodeResult → Nat
  | .success _ n => n
  | .rateLimitRaised _ n => n
  | .errorRaised _ n => n

/-- The tenacity retry loop around `geocode_one`'s body: `ctr` numbers
the next provider call, `used` counts attempts so far, the last argument
is the remaining attempt budget. Only a `RateLimitError` is retried;
when the budget is spent it is re-raised (`reraise=True`); any other
outcome ends the loop at once. -/
def geocodeRetryGo (oracle : Nat → ProviderResp) : Nat → Nat → Nat → GeocodeResult
  | _, used, 0 => .rateLimitRaised "" used
  | ctr, used, remaining + 1 =>
    match geocode_one_attempt (oracle ctr) with
    | .ok r => .success r (used + 1)
    | .otherError msg => .errorRaised msg (used + 1)
    | .rateLimit msg =>
      if remaining = 0 then .rateLimitRaised msg (used + 1)
      else geocodeRetryGo oracle (ctr + 1) (used + 1) remaining

/-- `geocode_one` as called by `main`: the body under
`stop_after_attempt(6)`, retrying on `RateLimitError` only. `ctr` is the
index of the run's next provider call. -/
def geocode_one (oracle : Nat → ProviderResp) (ctr : Nat) : GeocodeResult :=
  geocodeRetryGo oracle ctr 0 6

/-- The cache row `main` appends for a completed fetch: `NOT_FOUND` with
all-NA fields when `geocode_one` returned `None`, otherwise `OK` with
the returned coordinates and place id. -/
def resultEntry (addr : String) : Option GeocodeData → CacheEntry
  | none => ⟨addr, none, none, none, "NOT_FOUND"⟩
  | some d => ⟨addr, d.latitude, d.longitude, d.place_id, "OK"⟩

/-- The cache row `main` appends when a non-rate-limit exception escapes
`geocode_one`: all-NA fields and the error detail embedded in the status. -/
def errorEntry (addr msg : String) : CacheEntry :=
  ⟨addr, none, none, none, "ERROR: " ++ msg⟩

/-- Result of the fetch loop in `main`: the accumulated `results` list
and the next provider-call index, either after all rows were processed
or at the point a `RateLimitError` escaped. -/
inductive FetchOutcome where
  | completed (results : List CacheEntry) (ctr : Nat)
  | aborted (results : List CacheEntry) (ctr : Nat)
deriving DecidableEq, Repr

/-- The `for _, row in to_fetch.iterrows()` loop of `main`: fetch each
row's address; a success appends an `OK`/`NOT_FOUND` entry, an escaped
non-rate-limit exception appends an `ERROR` entry, and in both cases the
loop continues with the next row; an escaped `RateLimitError` stops the
loop with the results accumulated so far. -/
def fetchLoop (oracle : Nat → ProviderResp) :
    List MergedRow → Nat → List CacheEntry → FetchOutcome
  | [], ctr, acc => .completed acc ctr
  | m :: rest, ctr, acc =>
    match geocode_one oracle ctr with
    | .success r n =>
      fetchLoop oracle rest (ctr + n)
        (acc ++ [resultEntry m.record.address_for_geocoding r])
    | .errorRaised msg n =>
      fetchLoop oracle rest (ctr + n)
        (acc ++ [errorEntry m.record.address_for_geocoding msg])
    | .rateLimitRaised _ n => .aborted acc (ctr + n)

/-- Observable result of one run of `main`. `saved` is the logical
content of the cache file after the run: `none` when `save_cache` was
never called (the `if results:` guards), `some c` when the last
`save_cache` call wrote `c`. -/
inductive RunResult where
  | missingKey
  | rateLimitAbort (saved : Option (List CacheEntry))
  | done (saved : Option (List CacheEntry)) (memCache : List CacheEntry)
      (finalRows : List MergedRow)
deriving DecidableEq, Repr

/-- The process exit code of a run: `sys.exit(2)` on a missing API key,
`sys.exit(3)` on rate-limit abort, and 0 on normal completion. -/
def RunResult.exitCode : RunResult → Nat
  | .missingKey => 2
  | .rateLimitAbort _ => 3
  | .done _ _ _ => 0

/-- `combined = pd.concat([de, at])`: the extracted records of both
sheets, `"dm DE"` labelled `Germany` and `"dm AT"` labelled `Austria`. -/
def combinedRecords (deRows atRows : List Row) : List AddressRecord :=
  parse_sheet "Germany" deRows ++ parse_sheet "Austria" atRows

/-- `main`: check the API key, parse both sheets, load the cache, merge,
fetch the rows with NA latitude, flush new results to the cache file,
and join the records against the in-memory cache for output. On a
rate-limit abort, flush what was accumulated (if anything) and exit 3. -/
def runMain (hasApiKey : Bool) (deRows atRows : List Row) (disk : DiskFile)
    (oracle : Nat → ProviderResp) : RunResult :=
  if !hasApiKey then .missingKey
  else
    let combined := combinedRecords deRows atRows
    let cache_df := load_or_create_cache disk
    match fetchLoop oracle (toFetch combined cache_df) 0 [] with
    | .aborted results _ =>
      .rateLimitAbort
        (if results.isEmpty then none else some (save_cache (cache_df ++ results)))
    | .completed results _ =>
      let cache_df2 := cache_df ++ results
      let saved := if results.isEmpty then none else some (save_cache cache_df2)
      .done saved cache_df2 (mergeJoin combined cache_df2)

/-- `final[final["Country"] == "Germany"]`: the Germany output sheet. -/
def final_de (finalRows : List MergedRow) : List MergedRow :=
  finalRows.filter (fun m => m.record.country == "Germany")

/-- `final[final["Country"] == "Austria"]`: the Austria output sheet. -/
def final_at (finalRows : List MergedRow) : List MergedRow :=
  finalRows.filter (fun m => m.record.country == "Austria")

/-- The output rows of a completed run (empty for an aborted one, which
exits before the final join). -/
def RunResult.finalRows : RunResult → List MergedRow
  | .done _ _ rows => rows
  | _ => []

/-- A concrete valid sheet row: identifier `1001`, street `Mainstr. 5`,
postal code arriving as the numeric string `12345.0`, city `Berlin`. -/
def rowA : Row := ⟨some "1001", some "Mainstr. 5", some "12345.0", some "Berlin"⟩

/-- A concrete subtotal sentinel row. -/
def rowGesamt : Row := ⟨some "Gesamt", some "x", none, none⟩

/-- A concrete row with a usable identifier and street but NA postal
code and city cells. -/
def rowNoPlz : Row := ⟨some "7", some "Street 9", none, none⟩

/-- The record `parse_sheet "Germany" [rowA]` extracts. -/
def recA : AddressRecord :=
  ⟨"1001", "Mainstr. 5", "12345", "Berlin", "Germany", "Mainstr. 5, 12345 Berlin, Germany"⟩

/-- The record extracted from `rowNoPlz`: empty postal code and city. -/
def recNoPlz : AddressRecord :=
  ⟨"7", "Street 9", "", "", "Germany", "Street 9,  , Germany"⟩

/-- A cached `NOT_FOUND` entry (NA coordinates) for `recA`'s query. -/
def entryNF : CacheEntry := ⟨recA.address_for_geocoding, none, none, none, "NOT_FOUND"⟩

/-- A cached resolved entry (non-NA coordinates) for `recA`'s query. -/
def entryOK : CacheEntry := ⟨recA.address_for_geocoding, some 52, some 13, some "pid", "OK"⟩

/-- A provider that answers every call with one result. -/
def okOracle : Nat → ProviderResp :=
  fun _ => .results [⟨some 52, some 13, some "pid", some "fmt"⟩]

/-- A provider that raises a quota-exceeded error on every call. -/
def rlOracle : Nat → ProviderResp := fun _ => .exc "OVER_QUERY_LIMIT: quota"

/-- A provider that raises a non-rate-limit error on every call. -/
def errOracle : Nat → ProviderResp := fun _ => .exc "connection reset"

/-- A second concrete valid sheet row with a distinct address. -/
def rowB : Row := ⟨some "2002", some "Side St. 7", none, none⟩

/-- A provider whose first call succeeds and whose later calls all raise
quota-exceeded errors. -/
def mixedOracle : Nat → ProviderResp :=
  fun n => if n == 0 then .results [⟨some 1, some 2, some "q", none⟩]
    else .exc "OVER_DAILY_LIMIT"

/-! Helper lemmas about `dropDuplicatesKeepLast` and the left merge. -/

/-- Every row kept by the deduplication was a row of the input. -/
lemma mem_dropDuplicatesKeepLast {e : CacheEntry} :
    ∀ {l : List CacheEntry}, e ∈ dropDuplicatesKeepLast l → e ∈ l := by
  intro l
  induction l with
  | nil => simp [dropDuplicatesKeepLast]
  | cons a rest ih =>
    simp only [dropDuplicatesKeepLast]
    split
    · intro h
      exact List.mem_cons_of_mem a (ih h)
    · intro h
      rcases List.mem_cons.mp h with h | h
      · exact h ▸ List.mem_cons_self a rest
      · exact List.mem_cons_of_mem a (ih h)

/-- Deduplication keeps every key that occurred in the input. -/
lemma key_mem_dropDuplicatesKeepLast :
    ∀ (l : List CacheEntry), ∀ e ∈ l, ∃ e2 ∈ dropDuplicatesKeepLast l,
      e2.address_for_geocoding = e.address_for_geocoding := by
  intro l
  induction l with
  | nil => simp
  | cons a rest ih =>
    intro e he
    simp only [dropDuplicatesKeepLast]
    split
    · rename_i hany
      rcases List.mem_cons.mp he with heq | he'
      · subst heq
        rcases List.any_eq_true.mp hany with ⟨x, hx, hkey⟩
        rcases ih x hx with ⟨e2, he2, hk2⟩
        exact ⟨e2, he2, hk2.trans (beq_iff_eq.mp hkey)⟩
      · exact ih e he'
    · rcases List.mem_cons.mp he with heq | he'
      · subst heq
        exact ⟨e, List.mem_cons_self _ _, rfl⟩
      · rcases ih e he' with ⟨e2, he2, hk2⟩
        exact ⟨e2, List.mem_cons_of_mem a he2, hk2⟩

/-- After deduplication all keys are pairwise distinct: at most one
entry per `address_for_geocoding`. -/
lemma pairwise_dropDuplicatesKeepLast :
    ∀ l : List CacheEntry, (dropDuplicatesKeepLast l).Pairwise
      (fun a b => a.address_for_geocoding ≠ b.address_for_geocoding) := by
  intro l
  induction l with
  | nil => simp [dropDuplicatesKeepLast]
  | cons a rest ih =>
    simp only [dropDuplicatesKeepLast]
    split
    · exact ih
    · rename_i hany
      refine List.pairwise_cons.mpr ⟨?_, ih⟩
      intro b hb hk
      have hbrest : b ∈ rest := mem_dropDuplicatesKeepLast hb
      exact hany (List.any_eq_true.mpr ⟨b, hbrest, by simp [hk]⟩)

/-- Every merged row produced from a record carries that record. -/
lemma mergeRow_record {cache : List CacheEntry} {r : AddressRecord} {m : MergedRow}
    (h : m ∈ mergeRow cache r) : m.record = r := by
  unfold mergeRow at h
  split at h
  · simp at h
    subst h
    rfl
  · rcases List.mem_map.mp h with ⟨e, _, rfl⟩
    rfl

/-- Membership in a cache row's match list. -/
lemma mem_findMatches {cache : List CacheEntry} {addr : String} {e : CacheEntry} :
    e ∈ findMatches cache addr ↔ e ∈ cache ∧ e.address_for_geocoding = addr := by
  simp [findMatches]

/-- With pairwise-distinct keys, a key matches at most one cache row. -/
lemma findMatches_length_le_one {cache : List CacheEntry}
    (hp : cache.Pairwise (fun a b => a.address_for_geocoding ≠ b.address_for_geocoding))
    (addr : String) : (findMatches cache addr).length ≤ 1 := by
  induction cache with
  | nil => simp [findMatches]
  | cons a rest ih =>
    rcases List.pairwise_cons.mp hp with ⟨ha, hrest⟩
    by_cases hk : a.address_for_geocoding = addr
    · have hnil : findMatches rest addr = [] := by
        apply List.filter_eq_nil_iff.mpr
        intro x hx
        simp only [Bool.not_eq_true, beq_eq_false_iff_ne, ne_eq]
        intro hxk
        exact ha x hx (hk.trans hxk.symm)
      have hcons : findMatches (a :: rest) addr = a :: findMatches rest addr := by
        simp [findMatches, List.filter_cons, hk]
      rw [hcons, hnil]
      simp
    · have hskip : findMatches (a :: rest) addr = findMatches rest addr := by
        simp [findMatches, List.filter_cons, hk]
      rw [hskip]
      exact ih hrest

/-- The number of merged rows a record contributes to the left join. -/
lemma mergeRow_length (cache : List CacheEntry) (r : AddressRecord) :
    (mergeRow cache r).length =
      max 1 (findMatches cache r.address_for_geocoding).length := by
  unfold mergeRow
  cases hm : findMatches cache r.address_for_geocoding with
  | nil => simp
  | cons x xs =>
    simp only [List.length_map, List.length_cons]
    exact (Nat.max_eq_right (Nat.succ_le_succ (Nat.zero_le _))).symm

/-- A row is in the left merge iff some record of the left table
contributes it. -/
lemma mem_mergeJoin {combined : List AddressRecord} {cache : List CacheEntry}
    {m : MergedRow} :
    m ∈ mergeJoin combined cache ↔ ∃ r ∈ combined, m ∈ mergeRow cache r := by
  simp [mergeJoin, List.mem_flatten]

/-- When every left key matches at most one cache row, the left merge
has exactly one row per record of the left table. -/
lemma mergeJoin_length_of_unique {combined : List AddressRecord}
    {cache : List CacheEntry}
    (h : ∀ r ∈ combined, (findMatches cache r.address_for_geocoding).length ≤ 1) :
    (mergeJoin combined cache).length = combined.length := by
  induction combined with
  | nil => simp [mergeJoin]
  | cons r rest ih =>
    have hr := h r (List.mem_cons_self _ _)
    have hlen : (mergeRow cache r).length = 1 := by
      rw [mergeRow_length]
      exact Nat.max_eq_left hr
    have hrest := ih (fun x hx => h x (List.mem_cons_of_mem r hx))
    simp only [mergeJoin, List.map_cons, List.flatten_cons, List.length_append,
      List.length_cons] at *
    omega

/-! Helper lemmas about `parse_row` and `truncateDot`. -/

/-- Taking up to the first dot of `l ++ '.' :: f` returns `l` when `l`
itself is dot-free. -/
lemma takeWhile_append_dot (f : List Char) :
    ∀ l : List Char, (∀ c ∈ l, c ≠ '.') →
      (l ++ '.' :: f).takeWhile (fun c => decide (c ≠ '.')) = l := by
  intro l
  induction l with
  | nil => intro _; simp
  | cons c t ihl =>
    intro hl
    have h1 : ((c :: t) ++ '.' :: f).takeWhile (fun x => decide (x ≠ '.')) =
        c :: ((t ++ '.' :: f).takeWhile (fun x => decide (x ≠ '.'))) := by
      rw [List.cons_append, List.takeWhile_cons]
      simp [hl c (List.mem_cons_self _ _)]
    rw [h1, ihl (fun x hx => hl x (List.mem_cons_of_mem c hx))]

/-- `split(".")[0]` of a dot-free integer part followed by a fractional
part recovers the integer part. -/
lemma truncateDot_append (intPart fracPart : String) (h : '.' ∉ intPart.data) :
    truncateDot (intPart ++ "." ++ fracPart) = intPart := by
  unfold truncateDot
  have hdata : (intPart ++ "." ++ fracPart).data =
      intPart.data ++ ('.' :: fracPart.data) := by
    simp [String.data_append]
  rw [hdata, takeWhile_append_dot fracPart.data intPart.data
    (fun c hc hcdot => h (hcdot ▸ hc))]

/-- `parse_row` skips a row exactly when the identifier cell is NA or a
sentinel, or the street cell is NA or the literal header `Strasse`. -/
lemma parse_row_eq_none_iff (country : String) (row : Row) :
    parse_row country row = none ↔
      (row.col0 = none ∨ (∃ s, row.col0 = some s ∧ pyStrip s ∈ sentinels) ∨
       row.col3 = none ∨ (∃ s, row.col3 = some s ∧ pyStrip s = "Strasse")) := by
  rcases row with ⟨c0, c3, c4, c5⟩
  cases c0 with
  | none => simp [parse_row]
  | some first =>
    by_cases hs : pyStrip first ∈ sentinels
    · simp [parse_row, hs]
    · cases c3 with
      | none => simp [parse_row, hs]
      | some street =>
        by_cases hst : pyStrip street = "Strasse"
        · simp [parse_row, hs, hst]
        · simp [parse_row, hs, hst]

/-- Field-level description of a successfully parsed row. -/
lemma parse_row_some_fields {country : String} {row : Row} {r : AddressRecord}
    (h : parse_row country row = some r) :
    (∃ first, row.col0 = some first ∧ r.dm_code = pyStrip first) ∧
    (∃ street, row.col3 = some street ∧ r.strasse = pyStrip street) ∧
    r.plz = (match row.col4 with | none => "" | some v => truncateDot v) ∧
    r.ort = (match row.col5 with | none => "" | some v => v) ∧
    r.country = country ∧
    r.address_for_geocoding =
      r.strasse ++ ", " ++ r.plz ++ " " ++ r.ort ++ ", " ++ r.country := by
  rcases row with ⟨c0, c3, c4, c5⟩
  cases c0 with
  | none => simp [parse_row] at h
  | some first =>
    by_cases hs : pyStrip first ∈ sentinels
    · simp [parse_row, hs] at h
    · cases c3 with
      | none => simp [parse_row, hs] at h
      | some street =>
        by_cases hst : pyStrip street = "Strasse"
        · simp [parse_row, hs, hst] at h
        · simp only [parse_row, if_neg hs, if_neg hst, Option.some.injEq] at h
          subst h
          refine ⟨⟨first, rfl, rfl⟩, ⟨street, rfl, rfl⟩, ?_, ?_, rfl, rfl⟩
          · cases c4 <;> rfl
          · cases c5 <;> rfl

/-! Claims C7, C8, C9, C10: extractor and cache loading. -/

/-- C7: loading the cache never propagates an error — an absent or
unreadable cache file loads as the empty cache, and against the empty
cache every extracted record becomes exactly one to-fetch (miss) row,
so the batch proceeds as if no cache existed. -/
theorem claim7_load_fails_soft :
    load_or_create_cache .absent = [] ∧
    load_or_create_cache .unreadable = [] ∧
    ∀ combined : List AddressRecord,
      toFetch combined (load_or_create_cache .unreadable) =
        combined.map (fun r => ⟨r, none, none, none, none⟩) := by
  refine ⟨rfl, rfl, ?_⟩
  intro combined
  induction combined with
  | nil => rfl
  | cons r rest ih =>
    simp only [load_or_create_cache] at ih ⊢
    simp only [toFetch, mergeJoin, List.map_cons, List.flatten_cons,
      List.filter_append] at ih ⊢
    rw [ih]
    rfl

/-- C8: the query string is exactly
`"{street}, {postal_code} {city}, {country_label}"` built from the
record's own fields; it is a deterministic function of
(street, postal_code, city, country_label); and a postal cell arriving
as `"<digits>.<fraction>"` is truncated to its integer textual part. -/
theorem claim8_query_string :
    (∀ country row r, parse_row country row = some r →
        r.address_for_geocoding =
          r.strasse ++ ", " ++ r.plz ++ " " ++ r.ort ++ ", " ++ r.country ∧
        r.country = country) ∧
    (∀ c1 c2 row1 row2 r1 r2,
        parse_row c1 row1 = some r1 → parse_row c2 row2 = some r2 →
        r1.strasse = r2.strasse → r1.plz = r2.plz → r1.ort = r2.ort →
        r1.country = r2.country →
        r1.address_for_geocoding = r2.address_for_geocoding) ∧
    (∀ country row r intPart fracPart,
        row.col4 = some (intPart ++ "." ++ fracPart) → '.' ∉ intPart.data →
        parse_row country row = some r → r.plz = intPart) := by
  refine ⟨?_, ?_, ?_⟩
  · intro country row r h
    have hf := parse_row_some_fields h
    exact ⟨hf.2.2.2.2.2, hf.2.2.2.2.1⟩
  · intro c1 c2 row1 row2 r1 r2 h1 h2 hs hp ho hc
    have hf1 := (parse_row_some_fields h1).2.2.2.2.2
    have hf2 := (parse_row_some_fields h2).2.2.2.2.2
    rw [hf1, hf2, hs, hp, ho, hc]
  · intro country row r intPart fracPart hcol hdot h
    have hf := (parse_row_some_fields h).2.2.1
    rw [hcol] at hf
    simpa [truncateDot_append intPart fracPart hdot] using hf

/-- Witness for C8 at the concrete row `rowA` (postal cell `"12345.0"`). -/
theorem claim8_witness :
    recA.address_for_geocoding =
      recA.strasse ++ ", " ++ recA.plz ++ " " ++ recA.ort ++ ", " ++ recA.country ∧
    recA.plz = "12345" :=
  ⟨(claim8_query_string.1 "Germany" rowA recA (by decide)).1,
   claim8_query_string.2.2 "Germany" rowA recA "12345" "0"
     (by decide) (by decide) (by decide)⟩

/-- C9: a row whose identifier cell is NA or matches a sentinel string
is never extracted; the concrete one-valid-row-one-`Gesamt`-row input
yields exactly the one valid record. -/
theorem claim9_sentinels_skipped :
    (∀ country row,
        (row.col0 = none ∨ ∃ s, row.col0 = some s ∧ pyStrip s ∈ sentinels) →
        parse_row country row = none) ∧
    parse_sheet "Germany" [rowA, rowGesamt] = [recA] := by
  constructor
  · intro country row h
    apply (parse_row_eq_none_iff country row).mpr
    rcases h with h | h
    · exact Or.inl h
    · exact Or.inr (Or.inl h)
  · decide

/-- Witness for C9 at the concrete sentinel row `rowGesamt`. -/
theorem claim9_witness : parse_row "Austria" rowGesamt = none :=
  claim9_sentinels_skipped.1 "Austria" rowGesamt
    (Or.inr ⟨"Gesamt", rfl, by decide⟩)

/-- C10: a row is skipped exactly when its identifier cell is NA or a
sentinel, or its street cell is NA or the header `Strasse`; an NA postal
code or city cell does not skip the row — the record carries the empty
string there and the query string embeds it. -/
theorem claim10_missing_fields :
    ∀ country row,
      (parse_row country row = none ↔
        (row.col0 = none ∨ (∃ s, row.col0 = some s ∧ pyStrip s ∈ sentinels) ∨
         row.col3 = none ∨ (∃ s, row.col3 = some s ∧ pyStrip s = "Strasse"))) ∧
      (∀ r, parse_row country row = some r →
        (row.col4 = none → r.plz = "") ∧
        (row.col5 = none → r.ort = "") ∧
        r.address_for_geocoding =
          r.strasse ++ ", " ++ r.plz ++ " " ++ r.ort ++ ", " ++ r.country) := by
  intro country row
  refine ⟨parse_row_eq_none_iff country row, ?_⟩
  intro r h
  have hf := parse_row_some_fields h
  refine ⟨?_, ?_, hf.2.2.2.2.2⟩
  · intro h4
    rw [hf.2.2.1, h4]
  · intro h5
    rw [hf.2.2.2.1, h5]

/-- Witness for C10 at the concrete row `rowNoPlz` (NA postal and city
cells): the row is extracted, with empty strings embedded. -/
theorem claim10_witness :
    parse_row "Germany" rowNoPlz = some recNoPlz ∧
    recNoPlz.plz = "" ∧ recNoPlz.ort = "" ∧
    recNoPlz.address_for_geocoding =
      recNoPlz.strasse ++ ", " ++ recNoPlz.plz ++ " " ++ recNoPlz.ort ++ ", " ++
        recNoPlz.country := by
  have h := (claim10_missing_fields "Germany" rowNoPlz).2 recNoPlz (by decide)
  exact ⟨by decide, h.1 rfl, h.2.1 rfl, h.2.2⟩

/-! Helper lemmas about the retry loop. -/

/-- The retry loop consumes at most `remaining` further attempts. -/
lemma geocodeRetryGo_attempts_le (oracle : Nat → ProviderResp) :
    ∀ remaining ctr used,
      (geocodeRetryGo oracle ctr used remaining).attempts ≤ used + remaining := by
  intro remaining
  induction remaining with
  | zero =>
    intro ctr used
    simp [geocodeRetryGo, GeocodeResult.attempts]
  | succ rem ih =>
    intro ctr used
    simp only [geocodeRetryGo]
    cases geocode_one_attempt (oracle ctr) with
    | ok r => simp [GeocodeResult.attempts]
    | otherError msg => simp [GeocodeResult.attempts]
    | rateLimit msg =>
      by_cases h : rem = 0
      · simp [h, GeocodeResult.attempts]
      · simp only [h, if_false]
        have := ih (ctr + 1) (used + 1)
        omega

/-- With a positive budget the retry loop makes at least one attempt. -/
lemma geocodeRetryGo_attempts_ge (oracle : Nat → ProviderResp) :
    ∀ remaining ctr used, 1 ≤ remaining →
      used + 1 ≤ (geocodeRetryGo oracle ctr used remaining).attempts := by
  intro remaining
  induction remaining with
  | zero => intro ctr used h; omega
  | succ rem ih =>
    intro ctr used _
    simp only [geocodeRetryGo]
    cases geocode_one_attempt (oracle ctr) with
    | ok r => simp [GeocodeResult.attempts]
    | otherError msg => simp [GeocodeResult.attempts]
    | rateLimit msg =>
      by_cases h : rem = 0
      · simp [h, GeocodeResult.attempts]
      · simp only [h, if_false]
        have := ih (ctr + 1) (used + 1) (by omega)
        omega

/-- Every attempt the loop went past (all but the last one made) was a
rate-limited attempt: nothing else is ever retried. -/
lemma geocodeRetryGo_retried_rl (oracle : Nat → ProviderResp) :
    ∀ remaining ctr0 used i, used ≤ i →
      i + 1 < (geocodeRetryGo oracle (ctr0 + used) used remaining).attempts →
      isRateLimitResp (oracle (ctr0 + i)) = true := by
  intro remaining
  induction remaining with
  | zero =>
    intro ctr0 used i hle hlt
    simp [geocodeRetryGo, GeocodeResult.attempts] at hlt
    omega
  | succ rem ih =>
    intro ctr0 used i hle hlt
    simp only [geocodeRetryGo] at hlt
    cases hatt : geocode_one_attempt (oracle (ctr0 + used)) with
    | ok r =>
      rw [hatt] at hlt
      simp [GeocodeResult.attempts] at hlt
      omega
    | otherError msg =>
      rw [hatt] at hlt
      simp [GeocodeResult.attempts] at hlt
      omega
    | rateLimit msg =>
      rw [hatt] at hlt
      by_cases hrem : rem = 0
      · simp only [hrem, if_true, GeocodeResult.attempts] at hlt
        omega
      · simp only [hrem, if_false] at hlt
        by_cases hi : i = used
        · subst hi
          simp [isRateLimitResp, hatt]
        · exact ih ctr0 (used + 1) i (by omega) hlt

/-- When the loop ends by re-raising `RateLimitError`, it spent the full
budget and every attempt it made was rate-limited. -/
lemma geocodeRetryGo_rl_all (oracle : Nat → ProviderResp) :
    ∀ remaining ctr0 used msg n,
      geocodeRetryGo oracle (ctr0 + used) used remaining = .rateLimitRaised msg n →
      n = used + remaining ∧
      ∀ i, used ≤ i → i < n → isRateLimitResp (oracle (ctr0 + i)) = true := by
  intro remaining
  induction remaining with
  | zero =>
    intro ctr0 used msg n h
    simp only [geocodeRetryGo, GeocodeResult.rateLimitRaised.injEq] at h
    refine ⟨by omega, ?_⟩
    intro i h1 h2
    omega
  | succ rem ih =>
    intro ctr0 used msg n h
    simp only [geocodeRetryGo] at h
    cases hatt : geocode_one_attempt (oracle (ctr0 + used)) with
    | ok r => rw [hatt] at h; simp at h
    | otherError m => rw [hatt] at h; simp at h
    | rateLimit m =>
      rw [hatt] at h
      by_cases hrem : rem = 0
      · simp only [hrem, if_true, GeocodeResult.rateLimitRaised.injEq] at h
        refine ⟨by omega, ?_⟩
        intro i h1 h2
        have : i = used := by omega
        subst this
        simp [isRateLimitResp, hatt]
      · simp only [hrem, if_false] at h
        rcases ih ctr0 (used + 1) msg n h with ⟨hn, hall⟩
        refine ⟨by omega, ?_⟩
        intro i h1 h2
        by_cases hi : i = used
        · subst hi
          simp [isRateLimitResp, hatt]
        · exact hall i (by omega) h2

/-- A non-rate-limit exception ends the loop at once with that message. -/
lemma geocodeRetryGo_error_first (oracle : Nat → ProviderResp)
    (ctr used rem : Nat) (msg : String)
    (h : geocode_one_attempt (oracle ctr) = .otherError msg) :
    geocodeRetryGo oracle ctr used (rem + 1) = .errorRaised msg (used + 1) := by
  simp [geocodeRetryGo, h]

/-! Claims C5 and C6: the geocode client adapter. -/

/-- C5: the retry policy makes between 1 and 6 attempts in total, every
attempt it retried past raised `RateLimitError` (nothing else is ever
retried), exhaustion re-raises the `RateLimitError` after exactly 6
rate-limited attempts, a non-rate-limit exception propagates on the
first attempt it occurs, and each backoff wait of
`wait_exponential(multiplier=1, min=2, max=60)` lies between 2 and 60
time-units. -/
theorem claim5_retry_policy :
    ∀ (oracle : Nat → ProviderResp) (ctr : Nat),
      (1 ≤ (geocode_one oracle ctr).attempts ∧
        (geocode_one oracle ctr).attempts ≤ 6) ∧
      (∀ i, i + 1 < (geocode_one oracle ctr).attempts →
        isRateLimitResp (oracle (ctr + i)) = true) ∧
      (∀ msg n, geocode_one oracle ctr = .rateLimitRaised msg n →
        n = 6 ∧ ∀ i < 6, isRateLimitResp (oracle (ctr + i)) = true) ∧
      (∀ msg, geocode_one_attempt (oracle ctr) = .otherError msg →
        geocode_one oracle ctr = .errorRaised msg 1) ∧
      (∀ n, 2 ≤ wait_exponential_value n ∧ wait_exponential_value n ≤ 60) := by
  intro oracle ctr
  refine ⟨⟨?_, ?_⟩, ?_, ?_, ?_, ?_⟩
  · exact geocodeRetryGo_attempts_ge oracle 6 ctr 0 (by omega)
  · exact geocodeRetryGo_attempts_le oracle 6 ctr 0
  · intro i hlt
    exact geocodeRetryGo_retried_rl oracle 6 ctr 0 i (Nat.zero_le i) hlt
  · intro msg n h
    rcases geocodeRetryGo_rl_all oracle 6 ctr 0 msg n h with ⟨hn, hall⟩
    exact ⟨hn, fun i hi => hall i (Nat.zero_le i) (hn ▸ hi)⟩
  · intro msg h
    exact geocodeRetryGo_error_first oracle ctr 0 5 msg h
  · intro n
    unfold wait_exponential_value
    constructor
    · exact le_trans (by norm_num) (le_max_left _ _)
    · exact max_le (by norm_num) (min_le_right _ _)

/-- Witness for C5: a provider that always raises quota errors exhausts
the 6 attempts (all rate-limited), and a non-rate-limit error propagates
after exactly one attempt. -/
theorem claim5_witness :
    isRateLimitResp (rlOracle 2) = true ∧
    geocode_one errOracle 0 = .errorRaised "connection reset" 1 ∧
    2 ≤ wait_exponential_value 5 ∧ wait_exponential_value 5 ≤ 60 :=
  ⟨((claim5_retry_policy rlOracle 0).2.2.1 "OVER_QUERY_LIMIT: quota" 6
      (by decide)).2 2 (by decide),
   (claim5_retry_policy errOracle 0).2.2.2.1 "connection reset" (by decide),
   ((claim5_retry_policy errOracle 0).2.2.2.2 5).1,
   ((claim5_retry_policy errOracle 0).2.2.2.2 5).2⟩

/-- C6: a single attempt raises `RateLimitError` exactly when the
provider exception's message contains one of the quota-exceeded markers;
a zero-result provider response returns empty (`None`), not an error;
and any other provider exception propagates unchanged. -/
theorem claim6_rate_limit_detection :
    (∀ resp, (∃ msg, geocode_one_attempt resp = .rateLimit msg) ↔
      (∃ msg, resp = .exc msg ∧
        (strContains msg "OVER_QUERY_LIMIT" ||
          strContains msg "OVER_DAILY_LIMIT") = true)) ∧
    geocode_one_attempt (.results []) = .ok none ∧
    (∀ msg, (strContains msg "OVER_QUERY_LIMIT" ||
        strContains msg "OVER_DAILY_LIMIT") = false →
      geocode_one_attempt (.exc msg) = .otherError msg) := by
  refine ⟨?_, rfl, ?_⟩
  · intro resp
    constructor
    · rintro ⟨msg, h⟩
      cases resp with
      | results rs =>
        cases rs <;> simp [geocode_one_attempt] at h
      | exc m =>
        refine ⟨m, rfl, ?_⟩
        by_cases hq : (strContains m "OVER_QUERY_LIMIT" ||
            strContains m "OVER_DAILY_LIMIT") = true
        · exact hq
        · simp [geocode_one_attempt, hq] at h
    · rintro ⟨msg, rfl, hq⟩
      exact ⟨msg, by simp [geocode_one_attempt, hq]⟩
  · intro msg hq
    simp [geocode_one_attempt, hq]

/-- Witness for C6: a non-quota exception message propagates as a
generic error, and the empty result list is returned as empty. -/
theorem claim6_witness :
    geocode_one_attempt (.exc "connection reset") = .otherError "connection reset" ∧
    geocode_one_attempt (.results []) = .ok none :=
  ⟨claim6_rate_limit_detection.2.2 "connection reset" (by decide),
   claim6_rate_limit_detection.2.1⟩

/-! Claims C3 and C4: the batch driver's per-miss handling and the
rate-limit abort path. -/

/-- C3: for each miss the loop processes — a provider success appends an
`OK` entry with the returned coordinates and place id, a zero-results
outcome appends a `NOT_FOUND` entry with NA coordinates, and an escaped
non-rate-limit failure appends an entry whose status embeds the error
detail; in every one of these cases the loop continues with the
remaining rows instead of aborting. -/
theorem claim3_per_miss :
    ∀ (oracle : Nat → ProviderResp) (m : MergedRow) (rest : List MergedRow)
      (ctr : Nat) (acc : List CacheEntry),
      (∀ d n, geocode_one oracle ctr = .success (some d) n →
        fetchLoop oracle (m :: rest) ctr acc =
          fetchLoop oracle rest (ctr + n) (acc ++
            [⟨m.record.address_for_geocoding, d.latitude, d.longitude,
              d.place_id, "OK"⟩])) ∧
      (∀ n, geocode_one oracle ctr = .success none n →
        fetchLoop oracle (m :: rest) ctr acc =
          fetchLoop oracle rest (ctr + n) (acc ++
            [⟨m.record.address_for_geocoding, none, none, none, "NOT_FOUND"⟩])) ∧
      (∀ msg n, geocode_one oracle ctr = .errorRaised msg n →
        fetchLoop oracle (m :: rest) ctr acc =
          fetchLoop oracle rest (ctr + n) (acc ++
            [⟨m.record.address_for_geocoding, none, none, none,
              "ERROR: " ++ msg⟩])) := by
  intro oracle m rest ctr acc
  refine ⟨?_, ?_, ?_⟩
  · intro d n h
    simp [fetchLoop, h, resultEntry]
  · intro n h
    simp [fetchLoop, h, resultEntry]
  · intro msg n h
    simp [fetchLoop, h, errorEntry]

/-- Witness for C3: a zero-results response appends a `NOT_FOUND` entry
and the loop continues with the (empty) remainder. -/
theorem claim3_witness :
    fetchLoop (fun _ => .results []) [⟨recA, none, none, none, none⟩] 0 [] =
      fetchLoop (fun _ => .results []) [] (0 + 1) ([] ++
        [⟨recA.address_for_geocoding, none, none, none, "NOT_FOUND"⟩]) :=
  (claim3_per_miss (fun _ => .results []) ⟨recA, none, none, none, none⟩ [] 0 []).2.1
    1 (by decide)

/-- C4: when a `RateLimitError` escapes the retry policy during the
fetch loop, the whole run stops at once with exit code 3 — distinct
from the success code 0 and the missing-credential code 2 — and every
entry accumulated before the abort has its query string flushed to the
saved cache file (last-write-wins over the loaded cache). -/
theorem claim4_rate_limit_abort :
    ∀ (deRows atRows : List Row) (disk : DiskFile) (oracle : Nat → ProviderResp)
      (results : List CacheEntry) (ctr : Nat),
      fetchLoop oracle
          (toFetch (combinedRecords deRows atRows) (load_or_create_cache disk))
          0 [] = .aborted results ctr →
      (runMain true deRows atRows disk oracle).exitCode = 3 ∧
      (∀ saved2 mem rows, (runMain true deRows atRows disk oracle).exitCode ≠
        (RunResult.done saved2 mem rows).exitCode) ∧
      (runMain true deRows atRows disk oracle).exitCode ≠
        RunResult.missingKey.exitCode ∧
      (∀ e ∈ results, ∃ saved,
        runMain true deRows atRows disk oracle = .rateLimitAbort (some saved) ∧
        ∃ e2 ∈ saved, e2.address_for_geocoding = e.address_for_geocoding) := by
  intro deRows atRows disk oracle results ctr h
  have hrun : runMain true deRows atRows disk oracle =
      .rateLimitAbort (if results.isEmpty then none
        else some (save_cache (load_or_create_cache disk ++ results))) := by
    simp only [runMain, Bool.not_true, Bool.false_eq_true, if_false]
    rw [h]
  refine ⟨by rw [hrun]; rfl, by rw [hrun]; intro s m r; simp [RunResult.exitCode],
    by rw [hrun]; simp [RunResult.exitCode], ?_⟩
  intro e he
  have hne : results.isEmpty = false := by
    cases results with
    | nil => cases he
    | cons x xs => rfl
  refine ⟨save_cache (load_or_create_cache disk ++ results), ?_, ?_⟩
  · rw [hrun, hne]
    rfl
  · exact key_mem_dropDuplicatesKeepLast _ e (List.mem_append_right _ he)

/-- Witness for C4: with one cached-free address fetched successfully and
a second address hitting quota errors on all 6 attempts, the run aborts
with exit code 3 and the first address's entry is in the saved cache. -/
theorem claim4_witness :
    (runMain true [rowA, rowB] [] .absent mixedOracle).exitCode = 3 ∧
    (∃ saved, runMain true [rowA, rowB] [] .absent mixedOracle =
        .rateLimitAbort (some saved) ∧
      ∃ e2 ∈ saved, e2.address_for_geocoding =
        (⟨recA.address_for_geocoding, some 1, some 2, some "q",
          "OK"⟩ : CacheEntry).address_for_geocoding) :=
  ⟨(claim4_rate_limit_abort [rowA, rowB] [] .absent mixedOracle
      [⟨recA.address_for_geocoding, some 1, some 2, some "q", "OK"⟩] 7
      (by decide)).1,
   (claim4_rate_limit_abort [rowA, rowB] [] .absent mixedOracle
      [⟨recA.address_for_geocoding, some 1, some 2, some "q", "OK"⟩] 7
      (by decide)).2.2.2
      ⟨recA.address_for_geocoding, some 1, some 2, some "q", "OK"⟩
      (List.mem_singleton.mpr rfl)⟩

/-! Claims C1 and C2: the cache invariant, hit/miss partition and the
final join. -/

/-- Inverting a completed run: the output rows are the left join of the
extracted records against the final in-memory cache. -/
lemma runMain_done_inv {hasKey : Bool} {deRows atRows : List Row} {disk : DiskFile}
    {oracle : Nat → ProviderResp} {saved : Option (List CacheEntry)}
    {mem : List CacheEntry} {rows : List MergedRow}
    (h : runMain hasKey deRows atRows disk oracle = .done saved mem rows) :
    rows = mergeJoin (combinedRecords deRows atRows) mem := by
  cases hasKey with
  | false => simp [runMain] at h
  | true =>
    simp only [runMain, Bool.not_true, Bool.false_eq_true, if_false] at h
    cases hfl : fetchLoop oracle (toFetch (combinedRecords deRows atRows)
        (load_or_create_cache disk)) 0 [] with
    | aborted results c =>
      rw [hfl] at h
      simp at h
    | completed results c =>
      rw [hfl] at h
      simp only [RunResult.done.injEq] at h
      obtain ⟨h1, h2, h3⟩ := h
      subst h2
      subst h3
      rfl

/-- C2: assuming the loaded cache satisfies the data-model invariant of
at most one entry per query string, an extracted record appears among
the to-fetch rows (each of which the loop hands to the provider) exactly
when the cache has no entry for its query string with a non-NA latitude;
a resolved cached entry therefore suppresses the fetch, while
`NOT_FOUND`/`ERROR` entries — written with NA coordinates — are
refetched on every run; with nothing to fetch, the loop returns at once
making zero provider calls. -/
theorem claim2_cache_hit_miss :
    (∀ (cache : List CacheEntry) (combined : List AddressRecord) (r : AddressRecord),
      cache.Pairwise (fun a b => a.address_for_geocoding ≠ b.address_for_geocoding) →
      r ∈ combined →
      ((∃ m ∈ toFetch combined cache, m.record = r) ↔
        ¬ ∃ e ∈ cache, e.address_for_geocoding = r.address_for_geocoding ∧
          e.latitude.isSome = true)) ∧
    (∀ (oracle : Nat → ProviderResp) (ctr : Nat) (acc : List CacheEntry),
      fetchLoop oracle [] ctr acc = .completed acc ctr) ∧
    (∀ addr, (resultEntry addr none).latitude = none) ∧
    (∀ addr msg, (errorEntry addr msg).latitude = none) := by
  refine ⟨?_, fun oracle ctr acc => rfl, fun addr => rfl, fun addr msg => rfl⟩
  intro cache combined r hp hr
  have hle := findMatches_length_le_one hp r.address_for_geocoding
  constructor
  · rintro ⟨m, hm, hrec⟩ ⟨e, he, hkey, hsome⟩
    rcases List.mem_filter.mp hm with ⟨hj, hlat⟩
    rcases mem_mergeJoin.mp hj with ⟨r', hr', hmr⟩
    have hrr : r' = r := by rw [← mergeRow_record hmr, hrec]
    subst hrr
    have hef : e ∈ findMatches cache r'.address_for_geocoding :=
      mem_findMatches.mpr ⟨he, hkey⟩
    cases hfm : findMatches cache r'.address_for_geocoding with
    | nil =>
      rw [hfm] at hef
      cases hef
    | cons x xs =>
      rw [hfm] at hef hle
      have hxs : xs = [] := by
        cases xs with
        | nil => rfl
        | cons y ys => simp at hle
      subst hxs
      have hex : e = x := by simpa using hef
      subst hex
      unfold mergeRow at hmr
      rw [hfm] at hmr
      simp only [List.map_cons, List.map_nil, List.mem_singleton] at hmr
      rw [hmr] at hlat
      simp only at hlat
      rw [Option.isSome_iff_exists] at hsome
      rcases hsome with ⟨v, hv⟩
      rw [hv] at hlat
      simp at hlat
  · intro hno
    cases hfm : findMatches cache r.address_for_geocoding with
    | nil =>
      refine ⟨⟨r, none, none, none, none⟩, ?_, rfl⟩
      apply List.mem_filter.mpr
      refine ⟨?_, rfl⟩
      apply mem_mergeJoin.mpr
      refine ⟨r, hr, ?_⟩
      unfold mergeRow
      rw [hfm]
      simp
    | cons x xs =>
      have hx : x ∈ findMatches cache r.address_for_geocoding := by
        rw [hfm]
        exact List.mem_cons_self _ _
      rcases mem_findMatches.mp hx with ⟨hxc, hxk⟩
      have hxlat : x.latitude = none := by
        cases hlx : x.latitude with
        | none => rfl
        | some v => exact absurd ⟨x, hxc, hxk, by simp [hlx]⟩ hno
      refine ⟨⟨r, x.latitude, x.longitude, x.place_id, some x.geocode_status⟩, ?_, rfl⟩
      apply List.mem_filter.mpr
      refine ⟨?_, by simp [hxlat]⟩
      apply mem_mergeJoin.mpr
      refine ⟨r, hr, ?_⟩
      unfold mergeRow
      rw [hfm]
      exact List.mem_map.mpr ⟨x, List.mem_cons_self _ _, rfl⟩

/-- Witness for C2: a resolved cached entry suppresses the fetch of
`recA`; a `NOT_FOUND` (NA-coordinate) entry leaves it fetched. -/
theorem claim2_witness :
    (¬ ∃ m ∈ toFetch [recA] [entryOK], m.record = recA) ∧
    (∃ m ∈ toFetch [recA] [entryNF], m.record = recA) := by
  constructor
  · intro hL
    exact (claim2_cache_hit_miss.1 [entryOK] [recA] recA (by simp) (by simp)).mp hL
      ⟨entryOK, by simp, rfl, by decide⟩
  · refine (claim2_cache_hit_miss.1 [entryNF] [recA] recA (by simp) (by simp)).mpr ?_
    rintro ⟨e, he, hk, hs⟩
    rcases List.mem_singleton.mp he with rfl
    exact absurd hs (by decide)

/-- C1 counterexample: with one extracted record and a prior cache
holding a `NOT_FOUND` (NA-coordinate) entry for its query string, a
successful refetch leaves two entries for that key in the in-memory
cache, and the final join emits two output rows for the single record —
not exactly one. -/
theorem claim1_counterexample :
    (combinedRecords [rowA] []).length = 1 ∧
    ((runMain true [rowA] [] (.content [entryNF]) okOracle).finalRows.filter
      (fun m => m.record == recA)).length = 2 := by
  exact ⟨by decide, by decide⟩

/-- C1 amended: the cache file written by `save_cache` always holds at
most one entry per query string (last-write-wins on conflict); the final
BatchResult of a completed run holds exactly one output row per
extracted record whenever every record's query string matches at most
one entry of the post-fetch in-memory cache — but that in-memory cache
is not deduplicated before the final join, so a prior NA-coordinate
entry refetched in the same run yields two rows for its record. -/
theorem claim1_amended :
    (∀ l : List CacheEntry, (save_cache l).Pairwise
      (fun a b => a.address_for_geocoding ≠ b.address_for_geocoding)) ∧
    (∀ hasKey deRows atRows disk oracle saved mem rows,
      runMain hasKey deRows atRows disk oracle = .done saved mem rows →
      (∀ r ∈ combinedRecords deRows atRows,
        (findMatches mem r.address_for_geocoding).length ≤ 1) →
      rows.length = (combinedRecords deRows atRows).length) := by
  constructor
  · exact pairwise_dropDuplicatesKeepLast
  · intro hasKey deRows atRows disk oracle saved mem rows hrun huniq
    rw [runMain_done_inv hrun]
    exact mergeJoin_length_of_unique huniq

/-- Witness for C1 (amended): a run whose loaded cache already resolves
the single record completes with exactly one output row for it. -/
theorem claim1_witness :
    (mergeJoin (combinedRecords [rowA] []) [entryOK]).length =
      (combinedRecords [rowA] []).length :=
  claim1_amended.2 true [rowA] [] (.content [entryOK]) okOracle none [entryOK]
    (mergeJoin (combinedRecords [rowA] []) [entryOK]) (by decide) (by decide)
